import Mathlib

/-!
Shallow embedding of `simple-bootstrap` (`src/main.rs`), a rootfs-switch
pipeline: it unshares the mount namespace, builds a scratch root, pivots the
root, cleans up the old root, and launches a command.

The embedding has two layers:

* pure models of the helper functions `mount`, `umount` and `cmd_from_args`
  (flag validation and translation to the OS bitmask, construction of the
  launched command);
* a trace model of `main`: `main` is straight-line code in which every
  fallible operation aborts the process on failure (`expect`), so the set of
  possible executions is exactly the set of prefixes of one fixed sequence of
  attempted operations.  `mainEvents` is that sequence, and `run` cuts it at
  the first failing operation as chosen by an oracle `fails : Nat → Bool`.
-/

/-! ## Semantic mount flags (the `bitflags` sets in `main.rs`) -/

namespace MountFlags

/-- Bit of `MountFlags::REC` in `main.rs`. -/
def REC : Nat := 0b000001

/-- Bit of `MountFlags::BIND` in `main.rs`. -/
def BIND : Nat := 0b000010

/-- Bit of `MountFlags::SLAVE` in `main.rs`. -/
def SLAVE : Nat := 0b000100

/-- Bit of `MountFlags::SHARED` in `main.rs`. -/
def SHARED : Nat := 0b001000

/-- Bit of `MountFlags::PRIVATE` in `main.rs`. -/
def PRIVATE : Nat := 0b010000

/-- Bit of `MountFlags::UNBINDABLE` in `main.rs`. -/
def UNBINDABLE : Nat := 0b100000

/-- Union of all defined flag bits, `MountFlags::all()` of the `bitflags`
crate. -/
def all : Nat := REC ||| BIND ||| SLAVE ||| SHARED ||| PRIVATE ||| UNBINDABLE

end MountFlags

namespace UmountFlags

/-- Bit of `UmountFlags::NOFOLLOW` in `main.rs`. -/
def NOFOLLOW : Nat := 0b000001

/-- Bit of `UmountFlags::DETACH` in `main.rs`. -/
def DETACH : Nat := 0b000010

end UmountFlags

/-! ## OS-level mount bits (the `libc` constants used by `main.rs`) -/

/-- `libc::MS_BIND` on Linux. -/
def MS_BIND : Nat := 4096

/-- `libc::MS_REC` on Linux. -/
def MS_REC : Nat := 16384

/-- `libc::MS_SLAVE` on Linux (`1 << 19`). -/
def MS_SLAVE : Nat := 1 <<< 19

/-- `libc::MS_SHARED` on Linux (`1 << 20`). -/
def MS_SHARED : Nat := 1 <<< 20

/-- `libc::MS_PRIVATE` on Linux (`1 << 18`). -/
def MS_PRIVATE : Nat := 1 <<< 18

/-- `libc::MNT_DETACH` on Linux. -/
def MNT_DETACH : Nat := 2

/-- Bitwise complement on 32-bit words: the Rust `!flags` on a `u32`,
written as xor with the all-ones 32-bit word.  `MountFlags` is declared over
`u32`, so flag values live below `2 ^ 32`. -/
def u32_not (n : Nat) : Nat := 4294967295 ^^^ n

/-- OS bit chosen by the `match *flag` arms inside `mount` in `main.rs`.
`UNBINDABLE` maps to the literal `1 << 17` because `libc` exposes no
`MS_UNBINDABLE` constant.  The source's final `_ => Err(...)` arm is
unreachable (the loop feeds exactly the six constants below), and this
function is only ever applied to those six constants. -/
def osBit (flag : Nat) : Nat :=
  if flag = MountFlags.BIND then MS_BIND
  else if flag = MountFlags.REC then MS_REC
  else if flag = MountFlags.SLAVE then MS_SLAVE
  else if flag = MountFlags.SHARED then MS_SHARED
  else if flag = MountFlags.PRIVATE then MS_PRIVATE
  else if flag = MountFlags.UNBINDABLE then 1 <<< 17
  else 0

/-- The list the `for flag in &[...]` loop of `mount` iterates over, in
source order. -/
def flagsList : List Nat :=
  [MountFlags.REC, MountFlags.BIND, MountFlags.SLAVE,
   MountFlags.SHARED, MountFlags.PRIVATE, MountFlags.UNBINDABLE]

/-- Translation of a validated semantic flag set into the OS-level bitmask:
the accumulation loop of `mount` in `main.rs`.  `flags &&& f = f` is
`bitflags`' `contains`. -/
def translateFlags (flags : Nat) : Nat :=
  flagsList.foldl (fun acc f => if flags &&& f = f then acc ||| osBit f else acc) 0

/-- Outcome of the pure front half of `mount` in `main.rs`: either the flag
validation rejects the call before the syscall (carrying the offending bits
that the error message formats in binary), or the `libc::mount` syscall is
invoked with the given arguments and translated bitmask. -/
inductive MountCall where
  | rejected (extraBits : Nat)
  | invoke (src target fstype : String) (mntFlags : Nat)
deriving DecidableEq

/-- The `mount` wrapper of `main.rs` up to the syscall: validates that the
flag set is a subset of the known tags (`flags.bits() & !MountFlags::all()`),
then translates it; `None` flags mean a zero bitmask. -/
def mount (src target fstype : String) (maybeFlags : Option Nat) : MountCall :=
  match maybeFlags with
  | none => MountCall.invoke src target fstype 0
  | some flags =>
    let extraBits := flags &&& u32_not MountFlags.all
    if extraBits ≠ 0 then MountCall.rejected extraBits
    else MountCall.invoke src target fstype (translateFlags flags)

/-- Error value returned by `mount` in `main.rs`: either the pre-syscall
`InvalidFlags`-style error built with `io::Error::new` (naming the offending
bits), or `io::Error::last_os_error()`, which carries the OS error code and
the human-readable description derived from that code — and nothing else. -/
inductive MountError where
  | invalidFlags (extraBits : Nat)
  | osError (code : Int)
deriving DecidableEq

/-- Full result of one call to the `mount` wrapper, given the oracle values
`res` (return value of the `libc::mount` syscall) and `errno` (the OS error
code read by `io::Error::last_os_error()` when `res ≠ 0`).  Mirrors
`libc_result(res, 0)` in `main.rs`: the error constructed on syscall failure
is a function of `errno` alone and does not mention `src` or `target`. -/
def mountRun (src target fstype : String) (maybeFlags : Option Nat)
    (res errno : Int) : Except MountError Unit :=
  match mount src target fstype maybeFlags with
  | MountCall.rejected extra => Except.error (MountError.invalidFlags extra)
  | MountCall.invoke _ _ _ _ =>
    if res ≠ 0 then Except.error (MountError.osError errno) else Except.ok ()

/-- The `umount` wrapper of `main.rs` up to the syscall.  It never rejects
its input: the returned pair is the `(target, flags)` argument pair of the
`libc::umount2` syscall it invokes.  Only `UmountFlags::DETACH` is
translated (to `MNT_DETACH`); `NOFOLLOW` is never examined (the source notes
that `libc` exposes no `UMOUNT_NOFOLLOW` constant, and the translation is
commented out). -/
def umount (target : String) (maybeFlags : Option Nat) : String × Nat :=
  match maybeFlags with
  | none => (target, 0)
  | some flags =>
    (target,
     if flags &&& UmountFlags.DETACH = UmountFlags.DETACH then MNT_DETACH else 0)

/-! ## The launched command (`cmd_from_args` and `Command` in `main.rs`) -/

/-- Model of `std::process::Command` as configured by this program: the
program path, the argument vector accumulated by `Command::arg`, and whether
`env_clear` has been called (a freshly built `Command` inherits the caller's
environment, i.e. `envCleared := false`). -/
structure Cmd where
  program : String
  args : List String
  envCleared : Bool
deriving DecidableEq

/-- `cmd_from_args` of `main.rs`: `Command::new(program_args[0])`, then one
`cmd.arg(arg)` per remaining element, in order.  Indexing `program_args[0]`
panics on an empty slice, modelled as `none`. -/
def cmd_from_args (programArgs : List String) : Option Cmd :=
  match programArgs with
  | [] => none
  | p :: rest =>
    some (rest.foldl (fun acc arg => { acc with args := acc.args ++ [arg] })
      { program := p, args := [], envCleared := false })

/-- `Command::env_clear`: the launched process inherits no environment
variables from the caller. -/
def env_clear (c : Cmd) : Cmd := { c with envCleared := true }

/-! ## The pipeline trace (`main` in `main.rs`) -/

/-- One attempted operation of `main`.  `canonicalize` records the argument
and the resolved path (`PathBuf::canonicalize`); `mkTempDir` is
`tempfile::tempdir()`; `mount`/`umount` are calls to the wrappers above with
the *semantic* flag sets the call sites pass; `launch` is `cmd.status()`. -/
inductive Event where
  | canonicalize (arg resolved : String)
  | mkTempDir (path : String)
  | unshareMnt
  | mount (src target fstype : String) (flags : Option Nat)
  | umount (target : String) (flags : Option Nat)
  | pivotRoot (newRoot putOld : String)
  | createDir (path : String)
  | removeDir (path : String)
  | setCwd (path : String)
  | launch (cmd : Cmd)
deriving DecidableEq

/-- `PathBuf::join` with a relative component, for base paths that do not
end in a separator (as the paths in this program do). -/
def joinPath (base rel : String) : String := base ++ "/" ++ rel

/-- The fixed `from_host` array of `main.rs`. -/
def fromHost : List String := ["/dev", "/sys", "/proc"]

/-- Body of the `for loc in from_host.iter()` loop: recursively bind-mount
the host directory onto the corresponding path under the scratch directory
(`scratch_dir.join(&loc[1..])`), then make that target recursively slave. -/
def hostDirEvents (scratch loc : String) : List Event :=
  [Event.mount loc (joinPath scratch (loc.drop 1)) ""
     (some (MountFlags.REC ||| MountFlags.BIND)),
   Event.mount "none" (joinPath scratch (loc.drop 1)) ""
     (some (MountFlags.REC ||| MountFlags.SLAVE))]

/-- The sequence of operations `main` attempts after the `args.len() < 2`
guard, in program order, given the canonicalized rootfs path, the scratch
directory path chosen by `tempdir()`, and the already-built command.
`"/tmp/old-root"` is the old root's fixed relocation point after the pivot,
and `joinPath "/tmp/old-root" (scratch.drop 1)` is
`old_root.join(&scratch_dir_str[1..])`, the scratch directory's alias seen
through the relocated old root. -/
def mainEvents (rootfsArg rootfs scratch : String) (cmd : Cmd) : List Event :=
  [Event.canonicalize rootfsArg rootfs,
   Event.mkTempDir scratch,
   Event.unshareMnt,
   Event.mount "none" "/" "" (some (MountFlags.REC ||| MountFlags.SLAVE)),
   Event.mount scratch scratch "" (some MountFlags.BIND),
   Event.mount rootfs scratch "" (some (MountFlags.REC ||| MountFlags.BIND)),
   Event.mount "none" scratch "" (some (MountFlags.REC ||| MountFlags.SLAVE))] ++
  (fromHost.map (hostDirEvents scratch)).flatten ++
  [Event.mount "none" (joinPath scratch "tmp") "tmpfs" none,
   Event.createDir (joinPath scratch "tmp/old-root"),
   Event.pivotRoot scratch (joinPath scratch "tmp/old-root"),
   Event.umount (joinPath "/tmp/old-root" (scratch.drop 1)) none,
   Event.removeDir (joinPath "/tmp/old-root" (scratch.drop 1)),
   Event.mount "none" "/tmp/old-root" "" (some (MountFlags.REC ||| MountFlags.SLAVE)),
   Event.umount "/tmp/old-root" (some UmountFlags.DETACH),
   Event.removeDir "/tmp/old-root",
   Event.setCwd "/mnt",
   Event.launch cmd]

/-- Entry point: `main` of `main.rs` with the CLI argument list (after
`skip(1)`) made explicit.  Fewer than two arguments panics before any
operation (`rootfs or command not provided`), modelled as the empty trace;
otherwise the command is built by `cmd_from_args` on `args[1..]`, its
environment cleared, and the pipeline of `mainEvents` runs. -/
def simpleBootstrapMain (args : List String) (rootfs scratch : String) : List Event :=
  match args with
  | rootfsArg :: progAndArgs =>
    match cmd_from_args progAndArgs with
    | some c => mainEvents rootfsArg rootfs scratch (env_clear c)
    | none => []
  | [] => []

/-- Execution of a straight-line trace under a failure oracle, starting at
operation index `i`: each operation is attempted in order; the first failing
operation is attempted and then the process aborts (every fallible call in
`main` is wrapped in `expect`). -/
def runFrom (fails : Nat → Bool) (i : Nat) : List Event → List Event
  | [] => []
  | e :: rest => if fails i then [e] else e :: runFrom fails (i + 1) rest

/-- The operations actually attempted by one execution of the pipeline,
given the oracle saying which operation (by position) fails. -/
def run (fails : Nat → Bool) (tr : List Event) : List Event := runFrom fails 0 tr

/-- Predicate selecting the events that mutate the mount table (mounts,
unmounts and the root pivot). -/
def isMountMutation : Event → Bool
  | Event.mount _ _ _ _ => true
  | Event.umount _ _ => true
  | Event.pivotRoot _ _ => true
  | _ => false

/-- Everything the pipeline attempts before the old root's slave conversion:
path resolution, the temporary directory, the namespace detach, the scratch
root construction, the pivot, and the removal of the scratch directory's
alias inside the relocated old root. -/
def prePivotCleanupEvents (rootfsArg rootfs scratch : String) : List Event :=
  [Event.canonicalize rootfsArg rootfs,
   Event.mkTempDir scratch,
   Event.unshareMnt,
   Event.mount "none" "/" "" (some (MountFlags.REC ||| MountFlags.SLAVE)),
   Event.mount scratch scratch "" (some MountFlags.BIND),
   Event.mount rootfs scratch "" (some (MountFlags.REC ||| MountFlags.BIND)),
   Event.mount "none" scratch "" (some (MountFlags.REC ||| MountFlags.SLAVE)),
   Event.mount "/dev" (joinPath scratch "dev") "" (some (MountFlags.REC ||| MountFlags.BIND)),
   Event.mount "none" (joinPath scratch "dev") "" (some (MountFlags.REC ||| MountFlags.SLAVE)),
   Event.mount "/sys" (joinPath scratch "sys") "" (some (MountFlags.REC ||| MountFlags.BIND)),
   Event.mount "none" (joinPath scratch "sys") "" (some (MountFlags.REC ||| MountFlags.SLAVE)),
   Event.mount "/proc" (joinPath scratch "proc") "" (some (MountFlags.REC ||| MountFlags.BIND)),
   Event.mount "none" (joinPath scratch "proc") "" (some (MountFlags.REC ||| MountFlags.SLAVE)),
   Event.mount "none" (joinPath scratch "tmp") "tmpfs" none,
   Event.createDir (joinPath scratch "tmp/old-root"),
   Event.pivotRoot scratch (joinPath scratch "tmp/old-root"),
   Event.umount (joinPath "/tmp/old-root" (scratch.drop 1)) none,
   Event.removeDir (joinPath "/tmp/old-root" (scratch.drop 1))]

/-- Everything the pipeline attempts after the old root has been detached:
removal of its placeholder directory, the working-directory change, and the
launch. -/
def finalEvents (cmd : Cmd) : List Event :=
  [Event.removeDir "/tmp/old-root",
   Event.setCwd "/mnt",
   Event.launch cmd]

/-! ## Helper lemmas -/

/-- Folding `Command::arg` over a list appends the list to the accumulated
argument vector, in order. -/
theorem cmd_args_foldl (cs : List String) :
    ∀ c : Cmd,
      cs.foldl (fun acc arg => { acc with args := acc.args ++ [arg] }) c =
        { c with args := c.args ++ cs } := by
  induction cs with
  | nil => intro c; simp
  | cons x xs ih =>
    intro c
    rw [List.foldl_cons, ih]
    simp

/-- On a nonempty argument slice, `cmd_from_args` yields the head as program
and the tail, unmodified and in order, as the argument vector, with the
environment not yet cleared. -/
theorem cmd_from_args_eq (p : String) (rest : List String) :
    cmd_from_args (p :: rest) =
      some { program := p, args := rest, envCleared := false } := by
  simp [cmd_from_args, cmd_args_foldl]

/-- With at least two CLI arguments the pipeline runs `mainEvents` on the
command built from the tail with a cleared environment. -/
theorem simpleBootstrapMain_cons (a r s p : String) (cs : List String) :
    simpleBootstrapMain (a :: p :: cs) r s =
      mainEvents a r s { program := p, args := cs, envCleared := true } := by
  simp [simpleBootstrapMain, cmd_from_args_eq, env_clear]

/-- The pipeline trace written out event by event (the host-directory loop
unrolled and the relative path components computed). -/
theorem mainEvents_eq (a r s : String) (c : Cmd) :
    mainEvents a r s c =
      [Event.canonicalize a r,
       Event.mkTempDir s,
       Event.unshareMnt,
       Event.mount "none" "/" "" (some (MountFlags.REC ||| MountFlags.SLAVE)),
       Event.mount s s "" (some MountFlags.BIND),
       Event.mount r s "" (some (MountFlags.REC ||| MountFlags.BIND)),
       Event.mount "none" s "" (some (MountFlags.REC ||| MountFlags.SLAVE)),
       Event.mount "/dev" (joinPath s "dev") "" (some (MountFlags.REC ||| MountFlags.BIND)),
       Event.mount "none" (joinPath s "dev") "" (some (MountFlags.REC ||| MountFlags.SLAVE)),
       Event.mount "/sys" (joinPath s "sys") "" (some (MountFlags.REC ||| MountFlags.BIND)),
       Event.mount "none" (joinPath s "sys") "" (some (MountFlags.REC ||| MountFlags.SLAVE)),
       Event.mount "/proc" (joinPath s "proc") "" (some (MountFlags.REC ||| MountFlags.BIND)),
       Event.mount "none" (joinPath s "proc") "" (some (MountFlags.REC ||| MountFlags.SLAVE)),
       Event.mount "none" (joinPath s "tmp") "tmpfs" none,
       Event.createDir (joinPath s "tmp/old-root"),
       Event.pivotRoot s (joinPath s "tmp/old-root"),
       Event.umount (joinPath "/tmp/old-root" (s.drop 1)) none,
       Event.removeDir (joinPath "/tmp/old-root" (s.drop 1)),
       Event.mount "none" "/tmp/old-root" "" (some (MountFlags.REC ||| MountFlags.SLAVE)),
       Event.umount "/tmp/old-root" (some UmountFlags.DETACH),
       Event.removeDir "/tmp/old-root",
       Event.setCwd "/mnt",
       Event.launch c] := by
  have h1 : "/dev".drop 1 = "dev" := by decide
  have h2 : "/sys".drop 1 = "sys" := by decide
  have h3 : "/proc".drop 1 = "proc" := by decide
  simp [mainEvents, fromHost, hostDirEvents, h1, h2, h3]

/-- The fixed old-root relocation path is never equal to a path strictly
below it. -/
theorem old_root_ne_join (x : String) : "/tmp/old-root" ≠ joinPath "/tmp/old-root" x := by
  intro h
  have hlen := congrArg String.length h
  rw [joinPath, String.length_append, String.length_append] at hlen
  have h13 : "/tmp/old-root".length = 13 := rfl
  have hone : "/".length = 1 := rfl
  rw [h13, hone] at hlen
  omega

/-- Every execution attempts a prefix of the full trace: `runFrom` returns
some `take` of its input. -/
theorem runFrom_eq_take (fails : Nat → Bool) :
    ∀ (tr : List Event) (i : Nat), ∃ n, runFrom fails i tr = tr.take n := by
  intro tr
  induction tr with
  | nil => intro i; exact ⟨0, rfl⟩
  | cons e rest ih =>
    intro i
    by_cases h : fails i
    · exact ⟨1, by simp [runFrom, h]⟩
    · obtain ⟨n, hn⟩ := ih (i + 1)
      exact ⟨n + 1, by simp [runFrom, h, hn]⟩

/-- Every execution attempts a prefix of the full trace. -/
theorem run_eq_take (fails : Nat → Bool) (tr : List Event) :
    ∃ n, run fails tr = tr.take n := runFrom_eq_take fails tr 0

/-- In a list of the shape `pre ++ x :: y :: post` where `y` does not occur
in `pre` and differs from `x`, any prefix containing `y` also contains the
`x` placed immediately before it. -/
theorem mem_take_earlier {α : Type} (x y : α) (hxy : y ≠ x) :
    ∀ (pre post : List α) (n : Nat), y ∉ pre →
      y ∈ (pre ++ x :: y :: post).take n → x ∈ (pre ++ x :: y :: post).take n := by
  intro pre
  induction pre with
  | nil =>
    intro post n _ hy
    match n with
    | 0 => simp at hy
    | 1 =>
      simp only [List.nil_append, List.take_succ_cons, List.take_zero] at hy
      simp at hy
      exact absurd hy hxy
    | m + 2 => simp [List.take_succ_cons]
  | cons a pre ih =>
    intro post n hpre hy
    match n with
    | 0 => simp at hy
    | m + 1 =>
      rw [List.cons_append, List.take_succ_cons] at hy ⊢
      rcases List.mem_cons.mp hy with h | h
      · exact absurd (by rw [h]; exact List.mem_cons_self a pre) hpre
      · have hpre2 : y ∉ pre := fun hh => hpre (List.mem_cons_of_mem a hh)
        exact List.mem_cons_of_mem a (ih post m hpre2 h)

/-! ## Claims -/

/-- C3: for every flags argument containing a bit outside the six known
tags, the mount operation rejects the call, naming the offending bits, and
never reaches the `invoke` outcome, i.e. the underlying mount syscall is not
invoked. -/
theorem claim_c3_invalid_flags_rejected (src target fstype : String) (flags : Nat)
    (hbits : flags &&& u32_not MountFlags.all ≠ 0) :
    mount src target fstype (some flags) =
      MountCall.rejected (flags &&& u32_not MountFlags.all) ∧
    ∀ s2 t2 f2 m, mount src target fstype (some flags) ≠ MountCall.invoke s2 t2 f2 m := by
  have h : mount src target fstype (some flags) =
      MountCall.rejected (flags &&& u32_not MountFlags.all) := by
    simp [mount, hbits]
  refine ⟨h, fun s2 t2 f2 m => ?_⟩
  rw [h]
  simp

/-- Witness for C3: the flag value 64 (one bit above the known tags) is
rejected and names itself as the offending bit set. -/
theorem claim_c3_witness :
    (64 : Nat) &&& u32_not MountFlags.all ≠ 0 ∧
      mount "/host" "/scratch" "" (some 64) =
        MountCall.rejected (64 &&& u32_not MountFlags.all) :=
  ⟨by decide, (claim_c3_invalid_flags_rejected "/host" "/scratch" "" 64 (by decide)).1⟩

set_option maxRecDepth 10000 in
/-- C4: the translation from the semantic flag set to the OS-level mount
bitmask is a function of the flag set alone (it is a Lean `def` on the set's
bit representation), and on disjoint flag sets drawn from the closed tag set
it maps union to bitwise or. -/
theorem claim_c4_translate_hom (f1 f2 : Nat) (h1 : f1 < 64) (h2 : f2 < 64)
    (hdisj : f1 &&& f2 = 0) :
    translateFlags (f1 ||| f2) = translateFlags f1 ||| translateFlags f2 := by
  have h : ∀ g1, g1 < 64 → ∀ g2, g2 < 64 → g1 &&& g2 = 0 →
      translateFlags (g1 ||| g2) = translateFlags g1 ||| translateFlags g2 := by decide
  exact h f1 h1 f2 h2 hdisj

/-- Witness for C4 at the disjoint sets `{REC, SLAVE}` and `{BIND}`. -/
theorem claim_c4_witness :
    (5 : Nat) < 64 ∧ (2 : Nat) < 64 ∧ (5 : Nat) &&& 2 = 0 ∧
      translateFlags (5 ||| 2) = translateFlags 5 ||| translateFlags 2 :=
  ⟨by decide, by decide, by decide, claim_c4_translate_hom 5 2 (by decide) (by decide) (by decide)⟩

/-- C7 counterexample: two mount calls that differ in their `(source,
target)` pair but fail with the same OS error code return *equal* error
values, so the returned error alone cannot identify which call failed and
does not carry the `(source, target)` pair. -/
theorem claim_c7_counterexample :
    mountRun "/dev" "/scratch/dev" "" (some (MountFlags.REC ||| MountFlags.BIND)) (-1) 13 =
      mountRun "/sys" "/scratch/sys" "" (some (MountFlags.REC ||| MountFlags.BIND)) (-1) 13 ∧
    ("/dev", "/scratch/dev") ≠ ("/sys", "/scratch/sys") := by
  refine ⟨rfl, by decide⟩

/-- C7 (amended): when the underlying mount syscall fails, the mount
operation returns an error carrying exactly the OS error code (from which
its human-readable description is derived); the `(source, target)` pair of
the operation is not part of the returned error — the call sites, not the
returned error, attach the identifying paths in their abort messages. -/
theorem claim_c7_amended_os_error (src target fstype : String) (flags : Nat)
    (hok : flags &&& u32_not MountFlags.all = 0) (res errno : Int) (hres : res ≠ 0) :
    mountRun src target fstype (some flags) res errno =
      Except.error (MountError.osError errno) := by
  simp [mountRun, mount, hok, hres]

/-- Witness for the amended C7: a failing recursive bind mount returns the
bare OS error 13. -/
theorem claim_c7_amended_witness :
    (MountFlags.REC ||| MountFlags.BIND) &&& u32_not MountFlags.all = 0 ∧
      (-1 : Int) ≠ 0 ∧
      mountRun "/dev" "/scratch/dev" "" (some (MountFlags.REC ||| MountFlags.BIND)) (-1) 13 =
        Except.error (MountError.osError 13) :=
  ⟨by decide, by decide,
    claim_c7_amended_os_error "/dev" "/scratch/dev" "" (MountFlags.REC ||| MountFlags.BIND)
      (by decide) (-1) 13 (by decide)⟩

/-- C10: the unmount operation translates only the DETACH tag into the OS
bitmask; adding NOFOLLOW to any flag set leaves the invoked syscall
arguments unchanged (and, `umount` being a total function into the syscall
argument pair, such a set is accepted without error), and NOFOLLOW alone
behaves exactly like passing no flags. -/
theorem claim_c10_nofollow_dropped (target : String) (flags : Nat) (hflags : flags < 4) :
    umount target (some (flags ||| UmountFlags.NOFOLLOW)) = umount target (some flags) ∧
    umount target (some UmountFlags.NOFOLLOW) = umount target none := by
  refine ⟨?_, rfl⟩
  interval_cases flags <;> rfl

/-- Witness for C10 at the flag set `{DETACH}`. -/
theorem claim_c10_witness :
    (2 : Nat) < 4 ∧
      umount "/tmp/old-root" (some (2 ||| UmountFlags.NOFOLLOW)) =
        umount "/tmp/old-root" (some 2) :=
  ⟨by decide, (claim_c10_nofollow_dropped "/tmp/old-root" 2 (by decide)).1⟩

/-- C8: the command handed to the launcher is built from the caller-supplied
vector unmodified — the first argument becomes the program, the rest are the
arguments in order — and by the time the launch event runs its environment
has been cleared. -/
theorem claim_c8_cmd_passthrough_env_cleared (a r s p : String) (cs : List String) :
    cmd_from_args (p :: cs) = some { program := p, args := cs, envCleared := false } ∧
    (simpleBootstrapMain (a :: p :: cs) r s).getLast? =
      some (Event.launch { program := p, args := cs, envCleared := true }) := by
  refine ⟨cmd_from_args_eq p cs, ?_⟩
  rw [simpleBootstrapMain_cons, mainEvents_eq]
  rfl

/-- The full trace splits around the old root's slave conversion followed
immediately by its lazy unmount. -/
theorem mainEvents_decomp (a r s : String) (c : Cmd) :
    mainEvents a r s c =
      prePivotCleanupEvents a r s ++
        Event.mount "none" "/tmp/old-root" "" (some (MountFlags.REC ||| MountFlags.SLAVE)) ::
        Event.umount "/tmp/old-root" (some UmountFlags.DETACH) :: finalEvents c := by
  rw [mainEvents_eq]
  rfl

/-- No unmount of the old-root path occurs before its slave conversion. -/
theorem umount_old_root_not_before (a r s : String) (f : Option Nat) :
    Event.umount "/tmp/old-root" f ∉ prePivotCleanupEvents a r s := by
  simp [prePivotCleanupEvents, old_root_ne_join (s.drop 1)]

/-- C5: in every execution the events preceding the first mount-table
mutation are exactly path resolution, temporary-directory creation and the
namespace detach — none of which mutates the mount table — and the very next
event, the first mount operation, makes "/" recursively slave with source
"none" and empty filesystem type, before any scratch-root construction
step. -/
theorem claim_c5_first_mutation_root_rslave (a r s p : String) (cs : List String) :
    ∃ rest,
      simpleBootstrapMain (a :: p :: cs) r s =
        Event.canonicalize a r :: Event.mkTempDir s :: Event.unshareMnt ::
          Event.mount "none" "/" "" (some (MountFlags.REC ||| MountFlags.SLAVE)) :: rest ∧
      isMountMutation (Event.canonicalize a r) = false ∧
      isMountMutation (Event.mkTempDir s) = false ∧
      isMountMutation Event.unshareMnt = false := by
  rw [simpleBootstrapMain_cons, mainEvents_eq]
  exact ⟨_, rfl, rfl, rfl, rfl⟩

/-- C6: the pipeline contains, as one contiguous block, the bind-then-slave
pair for each of the three fixed host special directories — for each of
"/dev", "/sys", "/proc" a recursive bind of the host path onto the
corresponding path under the scratch root immediately followed by the
recursive slave conversion of that target, the pairs adjacent and not
interleaved. -/
theorem claim_c6_host_dir_pairs (a r s p : String) (cs : List String) :
    ∃ pre post,
      simpleBootstrapMain (a :: p :: cs) r s =
        pre ++
          [Event.mount "/dev" (joinPath s "dev") "" (some (MountFlags.REC ||| MountFlags.BIND)),
           Event.mount "none" (joinPath s "dev") "" (some (MountFlags.REC ||| MountFlags.SLAVE)),
           Event.mount "/sys" (joinPath s "sys") "" (some (MountFlags.REC ||| MountFlags.BIND)),
           Event.mount "none" (joinPath s "sys") "" (some (MountFlags.REC ||| MountFlags.SLAVE)),
           Event.mount "/proc" (joinPath s "proc") "" (some (MountFlags.REC ||| MountFlags.BIND)),
           Event.mount "none" (joinPath s "proc") "" (some (MountFlags.REC ||| MountFlags.SLAVE))]
          ++ post := by
  rw [simpleBootstrapMain_cons, mainEvents_eq]
  refine ⟨[Event.canonicalize a r,
           Event.mkTempDir s,
           Event.unshareMnt,
           Event.mount "none" "/" "" (some (MountFlags.REC ||| MountFlags.SLAVE)),
           Event.mount s s "" (some MountFlags.BIND),
           Event.mount r s "" (some (MountFlags.REC ||| MountFlags.BIND)),
           Event.mount "none" s "" (some (MountFlags.REC ||| MountFlags.SLAVE))],
          [Event.mount "none" (joinPath s "tmp") "tmpfs" none,
           Event.createDir (joinPath s "tmp/old-root"),
           Event.pivotRoot s (joinPath s "tmp/old-root"),
           Event.umount (joinPath "/tmp/old-root" (s.drop 1)) none,
           Event.removeDir (joinPath "/tmp/old-root" (s.drop 1)),
           Event.mount "none" "/tmp/old-root" "" (some (MountFlags.REC ||| MountFlags.SLAVE)),
           Event.umount "/tmp/old-root" (some UmountFlags.DETACH),
           Event.removeDir "/tmp/old-root",
           Event.setCwd "/mnt",
           Event.launch { program := p, args := cs, envCleared := true }], rfl⟩

/-- C9: the trace ends with the post-switch cleanup's final step (removal of
the old-root placeholder), then the change of working directory to the fixed
path "/mnt", then the launch — so the directory change happens after cleanup
completes and strictly before the launcher is invoked, and no earlier event
changes the working directory. -/
theorem claim_c9_chdir_mnt_before_launch (a r s p : String) (cs : List String) :
    ∃ pre,
      simpleBootstrapMain (a :: p :: cs) r s =
        pre ++ [Event.removeDir "/tmp/old-root", Event.setCwd "/mnt",
                Event.launch { program := p, args := cs, envCleared := true }] ∧
      Event.setCwd "/mnt" ∉ pre := by
  rw [simpleBootstrapMain_cons, mainEvents_decomp]
  refine ⟨prePivotCleanupEvents a r s ++
    [Event.mount "none" "/tmp/old-root" "" (some (MountFlags.REC ||| MountFlags.SLAVE)),
     Event.umount "/tmp/old-root" (some UmountFlags.DETACH)], ?_, ?_⟩
  · rfl
  · simp [prePivotCleanupEvents]

/-- C2: canonicalization of the rootfs path is the pipeline's first
operation and precedes the namespace detach (position 0 against position 2
of the trace); when canonicalization fails, the execution is exactly the
failed resolution attempt, so the namespace detach is never attempted. -/
theorem claim_c2_canonicalize_before_unshare (a r s p : String) (cs : List String)
    (fails : Nat → Bool) (hfail : fails 0 = true) :
    run fails (simpleBootstrapMain (a :: p :: cs) r s) = [Event.canonicalize a r] ∧
    Event.unshareMnt ∉ run fails (simpleBootstrapMain (a :: p :: cs) r s) ∧
    (simpleBootstrapMain (a :: p :: cs) r s).get? 0 = some (Event.canonicalize a r) ∧
    (simpleBootstrapMain (a :: p :: cs) r s).get? 2 = some Event.unshareMnt := by
  have hrun : run fails (simpleBootstrapMain (a :: p :: cs) r s) =
      [Event.canonicalize a r] := by
    rw [simpleBootstrapMain_cons, mainEvents_eq]
    simp [run, runFrom, hfail]
  refine ⟨hrun, ?_, ?_, ?_⟩
  · rw [hrun]
    simp
  · rw [simpleBootstrapMain_cons, mainEvents_eq]
    rfl
  · rw [simpleBootstrapMain_cons, mainEvents_eq]
    rfl

/-- Witness for C2: with the first operation failing, the execution is the
lone canonicalization attempt. -/
theorem claim_c2_witness :
    (fun _ : Nat => true) 0 = true ∧
      run (fun _ => true) (simpleBootstrapMain ["rootfs", "prog"] "/resolved" "/tmp/scr") =
        [Event.canonicalize "rootfs" "/resolved"] :=
  ⟨rfl, (claim_c2_canonicalize_before_unshare "rootfs" "/resolved" "/tmp/scr" "prog" []
    (fun _ => true) rfl).1⟩

/-- C1: in any execution in which the old root is unmounted, the relocated
old root was made recursively slave (a mount of "none" onto "/tmp/old-root"
with REC and SLAVE) before that unmount; the full trace places the slave
conversion immediately before the detach unmount, and no other unmount of
the old-root path exists anywhere in the trace, so the old root is never
unmounted without the preceding slave conversion and its unmount always uses
the detach (lazy) policy. -/
theorem claim_c1_slave_before_old_root_umount (a r s p : String) (cs : List String)
    (fails : Nat → Bool)
    (hmem : Event.umount "/tmp/old-root" (some UmountFlags.DETACH) ∈
      run fails (simpleBootstrapMain (a :: p :: cs) r s)) :
    Event.mount "none" "/tmp/old-root" "" (some (MountFlags.REC ||| MountFlags.SLAVE)) ∈
      run fails (simpleBootstrapMain (a :: p :: cs) r s) ∧
    ∃ pre post,
      simpleBootstrapMain (a :: p :: cs) r s =
        pre ++
          Event.mount "none" "/tmp/old-root" "" (some (MountFlags.REC ||| MountFlags.SLAVE)) ::
          Event.umount "/tmp/old-root" (some UmountFlags.DETACH) :: post ∧
      (∀ f, Event.umount "/tmp/old-root" f ∉ pre) ∧
      (∀ f, Event.umount "/tmp/old-root" f ∉ post) := by
  rw [simpleBootstrapMain_cons, mainEvents_decomp] at hmem ⊢
  refine ⟨?_, prePivotCleanupEvents a r s,
    finalEvents { program := p, args := cs, envCleared := true }, rfl,
    fun f => umount_old_root_not_before a r s f, fun f => by simp [finalEvents]⟩
  obtain ⟨n, hn⟩ := run_eq_take fails (prePivotCleanupEvents a r s ++
    Event.mount "none" "/tmp/old-root" "" (some (MountFlags.REC ||| MountFlags.SLAVE)) ::
    Event.umount "/tmp/old-root" (some UmountFlags.DETACH) ::
    finalEvents { program := p, args := cs, envCleared := true })
  rw [hn] at hmem ⊢
  exact mem_take_earlier _ _ (by simp) _ _ n
    (umount_old_root_not_before a r s (some UmountFlags.DETACH)) hmem

/-- Witness for C1: a failure-free execution contains the detach unmount of
the old root, and therefore also its preceding slave conversion. -/
theorem claim_c1_witness :
    Event.umount "/tmp/old-root" (some UmountFlags.DETACH) ∈
      run (fun _ => false) (simpleBootstrapMain ["rootfs", "prog"] "/resolved" "/tmp/scr") ∧
    Event.mount "none" "/tmp/old-root" "" (some (MountFlags.REC ||| MountFlags.SLAVE)) ∈
      run (fun _ => false) (simpleBootstrapMain ["rootfs", "prog"] "/resolved" "/tmp/scr") :=
  ⟨by decide, (claim_c1_slave_before_old_root_umount "rootfs" "/resolved" "/tmp/scr" "prog" []
    (fun _ => false) (by decide)).1⟩
